import Mathlib

/-!
Shallow embedding of the personal-finance tracker (src/App.tsx,
src/constants.ts, src/types.ts, src/services/firebase.ts — the Gemini advice
client).  JavaScript numbers are modelled as `Int` (every quantity in the
claims is integral), ISO-8601 date strings as their millisecond epoch value
(`Nat`): `new Date(s).getTime()` is order-isomorphic to that value, which is
all the code ever uses a date for.  Empty form fields are modelled as `none`
of an `Option`.
-/

namespace FinApp

/-- `BankAccount.type` in src/types.ts: five account kinds. -/
inductive AccountKind where
  | Checking
  | Savings
  | Credit
  | Cash
  | Investment
deriving DecidableEq, Repr

/-- `TransactionType` in src/types.ts: the direction flag of a transaction. -/
inductive TxType where
  | income
  | expense
deriving DecidableEq, Repr

/-- `BankAccount` in src/types.ts. -/
structure BankAccount where
  id : String
  name : String
  balance : Int
  type : AccountKind
  currency : String
deriving DecidableEq, Repr

/-- `Transaction` in src/types.ts; `date` is the millisecond value of the
ISO string. -/
structure Transaction where
  id : String
  accountId : String
  amount : Int
  type : TxType
  category : String
  date : Nat
  description : String
deriving DecidableEq, Repr

/-- The in-memory demo ("local") mode state owned by the component in
src/App.tsx: the `accounts` and `transactions` React state lists. -/
structure DemoState where
  accounts : List BankAccount
  transactions : List Transaction
deriving DecidableEq, Repr

/-! ### Derived-statistics layer (src/App.tsx lines 310-320) -/

/-- `totalBalance` (App.tsx:310):
`accounts.reduce((sum, acc) => sum + acc.balance, 0)`. -/
def totalBalance (accounts : List BankAccount) : Int :=
  accounts.foldl (fun sum acc => sum + acc.balance) 0

/-- `totalIncome` (App.tsx:311):
`transactions.filter(t => t.type === 'income').reduce((sum, t) => sum + t.amount, 0)`. -/
def totalIncome (transactions : List Transaction) : Int :=
  (transactions.filter (fun t => t.type = TxType.income)).foldl
    (fun sum t => sum + t.amount) 0

/-- `totalExpense` (App.tsx:312): same with `t.type === 'expense'`. -/
def totalExpense (transactions : List Transaction) : Int :=
  (transactions.filter (fun t => t.type = TxType.expense)).foldl
    (fun sum t => sum + t.amount) 0

/-- One step of the `pieData` accumulation (App.tsx:316-318):
`data[t.category] = (data[t.category] || 0) + t.amount` on a
`Record<string, number>`.  A `Record` holds one entry per key and
`Object.entries` returns entries in insertion order (for the string keys
used here), so the record is embedded as an association list: an existing
key is updated in place, a fresh key is appended. -/
def pieStep (data : List (String × Int)) (t : Transaction) : List (String × Int) :=
  if data.any (fun p => p.1 = t.category) then
    data.map (fun p => if p.1 = t.category then (p.1, p.2 + t.amount) else p)
  else
    data ++ [(t.category, t.amount)]

/-- `pieData` (App.tsx:314-320): fold the record update over the
expense-direction transactions and return the entries. -/
def pieData (transactions : List Transaction) : List (String × Int) :=
  (transactions.filter (fun t => t.type = TxType.expense)).foldl pieStep []

/-! ### Spec-side characterizations used to state the claims -/

/-- Sum of the balances of the account list, the spec's words for total
balance. -/
def specBalanceSum (accounts : List BankAccount) : Int :=
  (accounts.map (fun a => a.balance)).sum

/-- Sum of the amounts of the transactions with the given direction, the
spec's words for total income / total expense. -/
def specDirectionSum (d : TxType) (transactions : List Transaction) : Int :=
  ((transactions.filter (fun t => t.type = d)).map (fun t => t.amount)).sum

theorem foldl_add_eq_sum {α : Type} (f : α → Int) (l : List α) (i : Int) :
    l.foldl (fun sum x => sum + f x) i = i + (l.map f).sum := by
  induction l generalizing i with
  | nil => simp
  | cons x l ih => simp [List.foldl_cons, ih (i + f x), add_assoc]

/-- **C4**: the derived statistics match their spec-side sums: total balance
is the sum of all account balances, total income the sum of amounts over
income-direction transactions, and total expense the sum over
expense-direction transactions, for every pair of lists. -/
theorem totals_are_sums (accounts : List BankAccount)
    (transactions : List Transaction) :
    totalBalance accounts = specBalanceSum accounts ∧
    totalIncome transactions = specDirectionSum TxType.income transactions ∧
    totalExpense transactions = specDirectionSum TxType.expense transactions := by
  refine ⟨?_, ?_, ?_⟩
  · unfold totalBalance specBalanceSum
    simpa using foldl_add_eq_sum (fun a => a.balance) accounts 0
  · unfold totalIncome specDirectionSum
    simpa using foldl_add_eq_sum (fun t => t.amount)
      (transactions.filter (fun t => t.type = TxType.income)) 0
  · unfold totalExpense specDirectionSum
    simpa using foldl_add_eq_sum (fun t => t.amount)
      (transactions.filter (fun t => t.type = TxType.expense)) 0

/-! ### Transaction creation in demo mode (src/App.tsx lines 264-300) -/

/-- `saveTransaction` (App.tsx:264-300), demo-mode branch.  The form fields
are `transAmount` (empty field or unparsed input modelled as `none`),
`transDesc`, `transAccountId`, `transType`, `transCategory`; `now` is
`new Date().getTime()` and `newId` the `Date.now().toString()` identifier.
Guard: empty amount, description or account id aborts.  The first account
matching `transAccountId` (`accounts.find`) supplies the old balance; its
new balance is old + amount for income, old − amount for expense; the new
transaction is prepended and every account whose id matches is mapped to the
new balance. -/
def saveTransaction (s : DemoState) (transAmount : Option Int)
    (transDesc : String) (transAccountId : String) (transType : TxType)
    (transCategory : String) (now : Nat) (newId : String) : DemoState :=
  match transAmount with
  | none => s
  | some amount =>
    if transDesc = "" ∨ transAccountId = "" then s
    else
      match s.accounts.find? (fun a => a.id = transAccountId) with
      | none => s
      | some account =>
        let newBalance : Int :=
          match transType with
          | TxType.income => account.balance + amount
          | TxType.expense => account.balance - amount
        let newTx : Transaction :=
          { id := newId, accountId := transAccountId, amount := amount,
            type := transType, category := transCategory, date := now,
            description := transDesc }
        { accounts := s.accounts.map (fun a =>
            if a.id = transAccountId then { a with balance := newBalance } else a),
          transactions := newTx :: s.transactions }

/-- The balance delta the spec describes: `+ amount` for income, `− amount`
for expense. -/
def specNewBalance (t : TxType) (old amount : Int) : Int :=
  match t with
  | TxType.income => old + amount
  | TxType.expense => old - amount

theorem find?_eq_of_mem_of_nodup {l : List BankAccount} {a b : BankAccount}
    {tid : String} (hnd : (l.map (fun x => x.id)).Nodup) (ha : a ∈ l)
    (hid : a.id = tid) (hfind : l.find? (fun x => x.id = tid) = some b) :
    a = b := by
  have hb : b ∈ l := List.mem_of_find?_eq_some hfind
  have hbid : b.id = tid := by simpa using List.find?_some hfind
  exact List.inj_on_of_nodup_map hnd ha hb (hid.trans hbid.symm)

/-- **C1**: in demo mode, creating a transaction against an account present
in the current list (ids distinct, as the data model requires) updates
exactly that account's balance, once: the owner's balance becomes
old + amount (income) or old − amount (expense) and every other account is
unchanged; exactly the one new transaction is added. -/
theorem saveTransaction_balance (s : DemoState) (amount : Int)
    (transDesc transAccountId : String) (transType : TxType)
    (transCategory : String) (now : Nat) (newId : String)
    (hnd : (s.accounts.map (fun a => a.id)).Nodup)
    (hdesc : transDesc ≠ "") (hacc : transAccountId ≠ "")
    (hmem : ∃ a ∈ s.accounts, a.id = transAccountId) :
    (saveTransaction s (some amount) transDesc transAccountId transType
        transCategory now newId).accounts =
      s.accounts.map (fun a =>
        if a.id = transAccountId then
          { a with balance := specNewBalance transType a.balance amount }
        else a) ∧
    (saveTransaction s (some amount) transDesc transAccountId transType
        transCategory now newId).transactions =
      { id := newId, accountId := transAccountId, amount := amount,
        type := transType, category := transCategory, date := now,
        description := transDesc } :: s.transactions := by
  obtain ⟨a0, ha0, hid0⟩ := hmem
  have hsome : (s.accounts.find? (fun x => x.id = transAccountId)).isSome := by
    rw [List.find?_isSome]
    exact ⟨a0, ha0, by simpa using hid0⟩
  obtain ⟨b, hb⟩ := Option.isSome_iff_exists.1 hsome
  unfold saveTransaction
  simp only [hb]
  rw [if_neg (by simp [hdesc, hacc])]
  refine ⟨?_, rfl⟩
  apply List.map_congr_left
  intro a ha
  by_cases h : a.id = transAccountId
  · have hab : a = b := find?_eq_of_mem_of_nodup hnd ha h hb
    subst hab
    cases transType <;> simp [h, specNewBalance]
  · simp [h]

/-- Witness for `saveTransaction_balance` at a concrete state. -/
theorem saveTransaction_balance_witness :
    (saveTransaction
        { accounts := [{ id := "a1", name := "n", balance := 100,
                         type := AccountKind.Cash, currency := "TWD" }],
          transactions := [] }
        (some 30) "lunch" "a1" TxType.expense "food" 5 "t9").accounts =
      [{ id := "a1", name := "n", balance := 70,
         type := AccountKind.Cash, currency := "TWD" }] := by
  have h := saveTransaction_balance
    { accounts := [{ id := "a1", name := "n", balance := 100,
                     type := AccountKind.Cash, currency := "TWD" }],
      transactions := [] }
    30 "lunch" "a1" TxType.expense "food" 5 "t9"
    (by decide) (by decide) (by decide)
    ⟨{ id := "a1", name := "n", balance := 100,
       type := AccountKind.Cash, currency := "TWD" }, by simp, rfl⟩
  rw [h.1]
  decide

/-! ### Seed data (src/constants.ts) and end-to-end scenario A -/

/-- `MOCK_ACCOUNTS` (constants.ts:13-16). -/
def MOCK_ACCOUNTS : List BankAccount :=
  [{ id := "mock-1", name := "預設現金帳戶", balance := 50000,
     type := AccountKind.Cash, currency := "TWD" },
   { id := "mock-2", name := "薪資轉帳戶", balance := 120000,
     type := AccountKind.Checking, currency := "TWD" }]

/-- `MOCK_TRANSACTIONS` (constants.ts:18-22); the three seed dates are all
`new Date().toISOString()` at module load, abstracted as one load-time
value `t0`. -/
def MOCK_TRANSACTIONS (t0 : Nat) : List Transaction :=
  [{ id := "t1", accountId := "mock-1", amount := 150, type := TxType.expense,
     category := "飲食", date := t0, description := "午餐" },
   { id := "t2", accountId := "mock-2", amount := 50000, type := TxType.income,
     category := "薪資", date := t0, description := "十月薪資" },
   { id := "t3", accountId := "mock-1", amount := 1200, type := TxType.expense,
     category := "交通", date := t0, description := "高鐵票" }]

/-- The demo-mode state right after session start: the lists are populated
from the seed data (App.tsx:143-148). -/
def demoSeedState (t0 : Nat) : DemoState :=
  { accounts := MOCK_ACCOUNTS, transactions := MOCK_TRANSACTIONS t0 }

/-- Scenario A of the spec: from the seed state, create one expense
transaction of amount 150 with category 食 on the Cash account `mock-1`. -/
def scenarioA (t0 now : Nat) (desc newId : String) : DemoState :=
  saveTransaction (demoSeedState t0) (some 150) desc "mock-1" TxType.expense
    "食" now newId

/-- **C2, counterexample**: in scenario A the total expense is 1500 — the
three seed transactions contribute expenses 150 + 1200 and the new
transaction 150 — so it is not 150 as the claim states. -/
theorem scenarioA_totalExpense_ne :
    totalExpense (scenarioA 0 0 "午餐" "t4").transactions = 1500 ∧
    totalExpense (scenarioA 0 0 "午餐" "t4").transactions ≠ 150 := by
  constructor <;> decide

/-- **C2, amended**: starting from the seed state (seed transactions
included), scenario A yields Cash balance 49850 and total balance 169850 as
claimed, but total expense 1500 (the seed expenses 150 and 1200 plus the
new 150). -/
theorem scenarioA_results (t0 now : Nat) (desc newId : String)
    (hdesc : desc ≠ "") :
    ((scenarioA t0 now desc newId).accounts.find?
        (fun a => a.id = "mock-1")).map (fun a => a.balance) = some 49850 ∧
    totalBalance (scenarioA t0 now desc newId).accounts = 169850 ∧
    totalExpense (scenarioA t0 now desc newId).transactions = 1500 := by
  unfold scenarioA saveTransaction demoSeedState
  simp only [MOCK_ACCOUNTS, MOCK_TRANSACTIONS]
  rw [if_neg (by simp [hdesc])]
  refine ⟨?_, ?_, ?_⟩ <;> simp [totalBalance, totalExpense, List.find?]

/-- Witness for `scenarioA_results` at concrete inputs. -/
theorem scenarioA_results_witness :
    ((scenarioA 0 0 "午餐" "t5").accounts.find?
        (fun a => a.id = "mock-1")).map (fun a => a.balance) = some 49850 ∧
    totalBalance (scenarioA 0 0 "午餐" "t5").accounts = 169850 ∧
    totalExpense (scenarioA 0 0 "午餐" "t5").transactions = 1500 :=
  scenarioA_results 0 0 "午餐" "t5" (by decide)

/-! ### Category breakdown (claim C3) -/

/-- De-duplication keeping the first occurrence of each element, starting
from an already-seen set: the key order produced by record insertion. -/
def dedupFrom (seen : List String) : List String → List String
  | [] => []
  | c :: l => if c ∈ seen then dedupFrom seen l else c :: dedupFrom (c :: seen) l

/-- First-seen order of a list of labels. -/
def firstSeen (l : List String) : List String := dedupFrom [] l

/-- Sum of the amounts of the transactions in `es` with category `c`. -/
def catSum (es : List Transaction) (c : String) : Int :=
  ((es.filter (fun t => t.category = c)).map (fun t => t.amount)).sum

/-- The spec's words: sum of the amounts of the expense-direction
transactions carrying the category label `c`. -/
def expenseSum (transactions : List Transaction) (c : String) : Int :=
  ((transactions.filter (fun t => t.type = TxType.expense ∧ t.category = c)).map
    (fun t => t.amount)).sum

theorem catSum_cons (t : Transaction) (es : List Transaction) (c : String) :
    catSum (t :: es) c =
      (if t.category = c then t.amount else 0) + catSum es c := by
  by_cases h : t.category = c <;> simp [catSum, List.filter_cons, h]

theorem mem_dedupFrom {c : String} {l : List String} : ∀ {seen : List String},
    c ∈ dedupFrom seen l ↔ c ∈ l ∧ c ∉ seen := by
  induction l with
  | nil => intro seen; simp [dedupFrom]
  | cons x l ih =>
    intro seen
    by_cases hx : x ∈ seen
    · rw [dedupFrom, if_pos hx, ih, List.mem_cons]
      constructor
      · exact fun h => ⟨Or.inr h.1, h.2⟩
      · rintro ⟨hcx | hcl, hns⟩
        · exact absurd (hcx ▸ hx) hns
        · exact ⟨hcl, hns⟩
    · rw [dedupFrom, if_neg hx, List.mem_cons, List.mem_cons, ih]
      constructor
      · rintro (hcx | ⟨hcl, hns2⟩)
        · exact ⟨Or.inl hcx, hcx ▸ hx⟩
        · exact ⟨Or.inr hcl, fun hc => hns2 (List.mem_cons_of_mem x hc)⟩
      · rintro ⟨hcx | hcl, hns⟩
        · exact Or.inl hcx
        · by_cases hcx2 : c = x
          · exact Or.inl hcx2
          · exact Or.inr ⟨hcl, fun h => (List.mem_cons.1 h).elim hcx2 hns⟩

theorem dedupFrom_congr (l : List String) : ∀ {seen seen' : List String},
    (∀ x, x ∈ seen ↔ x ∈ seen') → dedupFrom seen l = dedupFrom seen' l := by
  induction l with
  | nil => intro seen seen' _; simp [dedupFrom]
  | cons x l ih =>
    intro seen seen' h
    by_cases hx : x ∈ seen
    · rw [dedupFrom, if_pos hx, dedupFrom, if_pos ((h x).1 hx)]
      exact ih h
    · rw [dedupFrom, if_neg hx, dedupFrom, if_neg (fun hc => hx ((h x).2 hc))]
      refine congrArg (x :: ·) (ih fun y => ?_)
      simp only [List.mem_cons]
      exact or_congr Iff.rfl (h y)

theorem keys_pieStep_update (acc : List (String × Int)) (c0 : String) (amt : Int) :
    (acc.map (fun p => if p.1 = c0 then (p.1, p.2 + amt) else p)).map
        (fun p => p.1) =
      acc.map (fun p => p.1) := by
  rw [List.map_map]
  apply List.map_congr_left
  intro p _
  by_cases h : p.1 = c0 <;> simp [h]

theorem any_key_iff (acc : List (String × Int)) (c0 : String) :
    acc.any (fun p => p.1 = c0) = true ↔ c0 ∈ acc.map (fun p => p.1) := by
  simp only [List.any_eq_true, List.mem_map, decide_eq_true_eq]

/-- The record fold behind `pieData`, characterized for an arbitrary
starting record: every existing entry gains the category's total over `es`,
and the unseen categories are appended in first-seen order with their
totals. -/
theorem foldl_pieStep (es : List Transaction) : ∀ acc : List (String × Int),
    es.foldl pieStep acc =
      acc.map (fun p => (p.1, p.2 + catSum es p.1)) ++
        (dedupFrom (acc.map (fun p => p.1)) (es.map (fun t => t.category))).map
          (fun c => (c, catSum es c)) := by
  induction es with
  | nil =>
    intro acc
    simp only [List.foldl_nil, dedupFrom, List.map_nil, List.append_nil,
      catSum, List.filter_nil, List.sum_nil, add_zero]
    exact (List.map_id acc).symm
  | cons t es ih =>
    intro acc
    rw [List.foldl_cons]
    by_cases hmem : t.category ∈ acc.map (fun p => p.1)
    · have hstep : pieStep acc t =
          acc.map (fun p => if p.1 = t.category then (p.1, p.2 + t.amount) else p) := by
        unfold pieStep
        rw [if_pos ((any_key_iff acc t.category).2 hmem)]
      rw [hstep, ih, keys_pieStep_update, List.map_cons, dedupFrom, if_pos hmem]
      congr 1
      · rw [List.map_map]
        apply List.map_congr_left
        intro p _
        simp only [Function.comp_apply]
        by_cases h : p.1 = t.category
        · rw [if_pos h, catSum_cons, if_pos h.symm]
          simp [add_assoc]
        · rw [if_neg h, catSum_cons, if_neg (fun hh => h hh.symm), zero_add]
      · apply List.map_congr_left
        intro c hc
        have hcn : c ∉ acc.map (fun p => p.1) := (mem_dedupFrom.1 hc).2
        have hne : ¬ t.category = c := fun h => hcn (h ▸ hmem)
        rw [catSum_cons, if_neg hne, zero_add]
    · have hany : ¬ acc.any (fun p => p.1 = t.category) = true :=
        fun h => hmem ((any_key_iff acc t.category).1 h)
      have hstep : pieStep acc t = acc ++ [(t.category, t.amount)] := by
        unfold pieStep
        rw [if_neg hany]
      rw [hstep, ih, List.map_append, List.map_append]
      simp only [List.map_cons, List.map_nil]
      have hseen : dedupFrom ((acc.map fun p => p.1) ++ [t.category])
            (es.map fun t => t.category) =
          dedupFrom (t.category :: acc.map fun p => p.1)
            (es.map fun t => t.category) :=
        dedupFrom_congr _ (fun x => by
          simp only [List.mem_append, List.mem_cons, List.not_mem_nil, or_false]
          exact or_comm)
      rw [hseen, dedupFrom, if_neg hmem, List.map_cons]
      have h1 : acc.map (fun p => (p.1, p.2 + catSum (t :: es) p.1)) =
          acc.map (fun p => (p.1, p.2 + catSum es p.1)) := by
        apply List.map_congr_left
        intro p hp
        have hpk : p.1 ∈ acc.map (fun p => p.1) := List.mem_map_of_mem _ hp
        have hne : ¬ t.category = p.1 := fun h => hmem (h ▸ hpk)
        rw [catSum_cons, if_neg hne, zero_add]
      have h3 : (dedupFrom (t.category :: acc.map fun p => p.1)
              (es.map fun t => t.category)).map
            (fun c => (c, catSum (t :: es) c)) =
          (dedupFrom (t.category :: acc.map fun p => p.1)
              (es.map fun t => t.category)).map
            (fun c => (c, catSum es c)) := by
        apply List.map_congr_left
        intro c hc
        have hcn : c ∉ t.category :: acc.map (fun p => p.1) :=
          (mem_dedupFrom.1 hc).2
        have hne : ¬ t.category = c :=
          fun h => hcn (by rw [← h]; exact List.mem_cons_self _ _)
        rw [catSum_cons, if_neg hne, zero_add]
      rw [h1, h3, catSum_cons, if_pos rfl]
      simp [List.map_cons, List.append_assoc]

theorem expenseSum_eq_catSum (transactions : List Transaction) (c : String) :
    catSum (transactions.filter (fun t => t.type = TxType.expense)) c =
      expenseSum transactions c := by
  unfold catSum expenseSum
  rw [List.filter_filter]
  have hpred : (fun t : Transaction =>
        decide (t.category = c) && decide (t.type = TxType.expense)) =
      (fun t : Transaction => decide (t.type = TxType.expense ∧ t.category = c)) := by
    funext t
    simp [Bool.decide_and, Bool.and_comm]
  rw [hpred]

/-- **C3**: `pieData` maps exactly the categories that have at least one
expense-direction transaction, in first-seen order of the expense
transactions, each to the sum of the amounts of the expense-direction
transactions with that label; categories with zero expense transactions
have no entry (the key membership is an ↔). -/
theorem pieData_breakdown (transactions : List Transaction) :
    pieData transactions =
      (firstSeen ((transactions.filter (fun t => t.type = TxType.expense)).map
          (fun t => t.category))).map
        (fun c => (c, expenseSum transactions c)) ∧
    ∀ c : String, c ∈ (pieData transactions).map (fun p => p.1) ↔
      ∃ t ∈ transactions, t.type = TxType.expense ∧ t.category = c := by
  have hchar : pieData transactions =
      (firstSeen ((transactions.filter (fun t => t.type = TxType.expense)).map
          (fun t => t.category))).map
        (fun c => (c, expenseSum transactions c)) := by
    unfold pieData firstSeen
    rw [foldl_pieStep]
    simp only [List.map_nil, List.nil_append]
    apply List.map_congr_left
    intro c _
    rw [expenseSum_eq_catSum]
  refine ⟨hchar, fun c => ?_⟩
  rw [hchar, List.map_map]
  constructor
  · intro hc
    simp only [List.mem_map, Function.comp] at hc
    obtain ⟨c', hc', rfl⟩ := hc
    have := (mem_dedupFrom.1 hc').1
    simp only [List.mem_map, List.mem_filter, decide_eq_true_eq] at this
    obtain ⟨t, ⟨ht, hty⟩, hcat⟩ := this
    exact ⟨t, ht, hty, hcat⟩
  · rintro ⟨t, ht, hty, hcat⟩
    have hmem1 : c ∈ (transactions.filter
        (fun t => t.type = TxType.expense)).map (fun t => t.category) := by
      simp only [List.mem_map, List.mem_filter, decide_eq_true_eq]
      exact ⟨t, ⟨ht, hty⟩, hcat⟩
    have hmem2 : c ∈ dedupFrom []
        ((transactions.filter (fun t => t.type = TxType.expense)).map
          (fun t => t.category)) :=
      mem_dedupFrom.2 ⟨hmem1, by simp⟩
    exact List.mem_map_of_mem _ hmem2

/-! ### Advice client (src/services — geminiService `getFinancialAdvice`) -/

/-- Whether the Gemini client was constructed:
`if (apiKey && apiKey !== 'undefined')` — the env value must be present,
non-empty and not the literal string "undefined". -/
def aiConfigured (apiKey : Option String) : Bool :=
  match apiKey with
  | none => false
  | some k => !(k = "") && !(k = "undefined")

/-- The fixed feature-disabled message returned when no API key is set. -/
def disabledMessage : String :=
  "⚠️ API KEY 未設定。請在佈署環境變數中設定 API_KEY 以啟用 AI 分析功能。目前為離線展示模式。"

/-- The fixed temporarily-unavailable message returned from the catch
block. -/
def unavailableMessage : String := "AI 分析暫時無法使用，請稍後再試。"

/-- The fallback used when a successful response carries no text:
`response.text || "無法生成建議。"`. -/
def noTextMessage : String := "無法生成建議。"

/-- Rendering of the account kind literals used in the prompt. -/
def kindLabel : AccountKind → String
  | AccountKind.Checking => "Checking"
  | AccountKind.Savings => "Savings"
  | AccountKind.Credit => "Credit"
  | AccountKind.Cash => "Cash"
  | AccountKind.Investment => "Investment"

/-- `transactionSummary`: one line per transaction.  The source renders
`t.date.split('T')[0]`; dates being abstracted to their numeric value, the
rendering is `toString`. -/
def transactionSummary (transactions : List Transaction) : String :=
  String.intercalate "\n" (transactions.map (fun t =>
    "- " ++ toString t.date ++ ": " ++
      (match t.type with
       | TxType.income => "收入"
       | TxType.expense => "支出") ++
      " $" ++ toString t.amount ++ " (" ++ t.category ++ ") - " ++
      t.description))

/-- `accountSummary`: one line per account. -/
def accountSummary (accounts : List BankAccount) : String :=
  String.intercalate "\n" (accounts.map (fun a =>
    "- " ++ a.name ++ " (" ++ kindLabel a.type ++ "): 餘額 $" ++
      toString a.balance))

/-- The fixed instructional prompt template with the two summaries
embedded. -/
def advicePrompt (transactions : List Transaction)
    (accounts : List BankAccount) : String :=
  "\n    你是一位專業的個人財務顧問。請根據以下的財務數據為使用者提供簡短、具體的建議。\n" ++
  "    請使用繁體中文回答。\n\n    目前資產狀況：\n    " ++
  accountSummary accounts ++
  "\n\n    近期交易紀錄：\n    " ++
  transactionSummary transactions ++
  "\n\n    請分析消費習慣，指出潛在的浪費，並給出理財建議。請保持語氣鼓勵且專業。\n    "

/-- Outcome of the single `generateContent` request: a thrown error
(network error, non-success response, response that fails to parse) with
its message, or a returned response whose `text` may be absent. -/
inductive GenOutcome where
  | err (message : String)
  | ok (text : Option String)

/-- Observable result of one advice call: the returned string and the
prompts of the network requests that were issued. -/
structure AdviceResult where
  advice : String
  requests : List String
deriving DecidableEq, Repr

/-- `getFinancialAdvice` (geminiService): no client → fixed disabled
message without any request; otherwise one request with the built prompt,
whose thrown errors are caught and replaced by the fixed unavailable
message, and whose missing/empty response text falls back to
`noTextMessage`. -/
def getFinancialAdvice (apiKey : Option String) (outcome : GenOutcome)
    (transactions : List Transaction) (accounts : List BankAccount) :
    AdviceResult :=
  if aiConfigured apiKey then
    let prompt := advicePrompt transactions accounts
    match outcome with
    | GenOutcome.ok t =>
        { advice := if t.getD "" = "" then noTextMessage else t.getD "",
          requests := [prompt] }
    | GenOutcome.err _ =>
        { advice := unavailableMessage, requests := [prompt] }
  else
    { advice := disabledMessage, requests := [] }

/-- **C5**: with no AI credential configured the advice call returns the
fixed feature-disabled message and issues zero network requests, for every
outcome and every pair of input lists. -/
theorem advice_disabled (apiKey : Option String) (outcome : GenOutcome)
    (transactions : List Transaction) (accounts : List BankAccount)
    (h : aiConfigured apiKey = false) :
    getFinancialAdvice apiKey outcome transactions accounts =
      { advice := disabledMessage, requests := [] } := by
  unfold getFinancialAdvice
  rw [h]
  simp

/-- Witness for `advice_disabled`: no key at all. -/
theorem advice_disabled_witness :
    getFinancialAdvice none (GenOutcome.ok none) [] [] =
      { advice := disabledMessage, requests := [] } :=
  advice_disabled none (GenOutcome.ok none) [] [] (by decide)

/-- **C6**: with a configured credential, every request that raises —
whatever the error message — yields the fixed temporarily-unavailable
string, never the error's own message (when the two differ), and the error
is not propagated: the call still returns an `AdviceResult`, with the one
request recorded. -/
theorem advice_error_fallback (apiKey : Option String) (e : String)
    (transactions : List Transaction) (accounts : List BankAccount)
    (h : aiConfigured apiKey = true) :
    (getFinancialAdvice apiKey (GenOutcome.err e) transactions
        accounts).advice = unavailableMessage ∧
    (e ≠ unavailableMessage →
      (getFinancialAdvice apiKey (GenOutcome.err e) transactions
          accounts).advice ≠ e) ∧
    (getFinancialAdvice apiKey (GenOutcome.err e) transactions
        accounts).requests = [advicePrompt transactions accounts] := by
  unfold getFinancialAdvice
  rw [h]
  exact ⟨rfl, fun hne => fun hadv => hne hadv.symm, rfl⟩

/-- Witness for `advice_error_fallback` at a concrete key and error. -/
theorem advice_error_fallback_witness :
    (getFinancialAdvice (some "k") (GenOutcome.err "network down") [] []).advice =
        unavailableMessage ∧
    ("network down" ≠ unavailableMessage →
      (getFinancialAdvice (some "k") (GenOutcome.err "network down") [] []).advice ≠
        "network down") ∧
    (getFinancialAdvice (some "k") (GenOutcome.err "network down") [] []).requests =
      [advicePrompt [] []] :=
  advice_error_fallback (some "k") "network down" [] [] (by decide)

/-! ### Login (src/App.tsx `handleLogin`, lines 173-197) -/

/-- `UserProfile` in src/types.ts (the shape put into `user` state). -/
structure UserProfile where
  uid : String
  email : Option String
deriving DecidableEq, Repr

/-- The two application modes of App.tsx (`appMode`). -/
inductive AppMode where
  | demo
  | production
deriving DecidableEq, Repr

/-- The component state touched by `handleLogin`. -/
structure AppState where
  user : Option UserProfile
  accounts : List BankAccount
  transactions : List Transaction
  authError : String
deriving DecidableEq, Repr

/-- Outcome of the delegated credential validation
(`signInWithEmailAndPassword` / `createUserWithEmailAndPassword`): success
(the user is then delivered through `onAuthStateChanged`, not by
`handleLogin` itself) or a thrown error with its message. -/
inductive AuthOutcome where
  | success
  | failure (message : String)

/-- `handleLogin` (App.tsx:173-197).  Demo mode accepts anything and sets a
fixed demo user; production mode requires the auth handle and on a thrown
validation error sets `authError` to `err.message || "登入失敗"`. -/
def handleLogin (appMode : AppMode) (email : String) (authAvailable : Bool)
    (outcome : AuthOutcome) (s : AppState) : AppState :=
  let s0 := { s with authError := "" }
  match appMode with
  | AppMode.demo =>
    let demoUser : UserProfile :=
      { uid := "demo-user"
        email := some (if email = "" then "demo@example.com" else email) }
    { s0 with user := some demoUser }
  | AppMode.production =>
    if authAvailable then
      match outcome with
      | AuthOutcome.success => s0
      | AuthOutcome.failure msg =>
        { s0 with authError := if msg = "" then "登入失敗" else msg }
    else
      { s0 with authError := "Firebase 未初始化，請檢查設定或切換至展示模式。" }

/-- **C9**: in remote (production) mode a failed credential validation
surfaces a non-empty user-visible error message, leaves the current
accounts and transactions lists unchanged, and leaves the session
unauthenticated. -/
theorem handleLogin_failure (email msg : String) (s : AppState)
    (h : s.user = none) :
    (handleLogin AppMode.production email true (AuthOutcome.failure msg)
        s).authError ≠ "" ∧
    (handleLogin AppMode.production email true (AuthOutcome.failure msg)
        s).accounts = s.accounts ∧
    (handleLogin AppMode.production email true (AuthOutcome.failure msg)
        s).transactions = s.transactions ∧
    (handleLogin AppMode.production email true (AuthOutcome.failure msg)
        s).user = none := by
  unfold handleLogin
  refine ⟨?_, rfl, rfl, h⟩
  by_cases hm : msg = "" <;> simp [hm]

/-- Witness for `handleLogin_failure` at a concrete unauthenticated
state. -/
theorem handleLogin_failure_witness :
    (handleLogin AppMode.production "u@example.com" true
        (AuthOutcome.failure "wrong password")
        { user := none, accounts := MOCK_ACCOUNTS,
          transactions := MOCK_TRANSACTIONS 0, authError := "" }).authError ≠ "" ∧
    (handleLogin AppMode.production "u@example.com" true
        (AuthOutcome.failure "wrong password")
        { user := none, accounts := MOCK_ACCOUNTS,
          transactions := MOCK_TRANSACTIONS 0, authError := "" }).accounts =
      MOCK_ACCOUNTS ∧
    (handleLogin AppMode.production "u@example.com" true
        (AuthOutcome.failure "wrong password")
        { user := none, accounts := MOCK_ACCOUNTS,
          transactions := MOCK_TRANSACTIONS 0, authError := "" }).transactions =
      MOCK_TRANSACTIONS 0 ∧
    (handleLogin AppMode.production "u@example.com" true
        (AuthOutcome.failure "wrong password")
        { user := none, accounts := MOCK_ACCOUNTS,
          transactions := MOCK_TRANSACTIONS 0, authError := "" }).user = none :=
  handleLogin_failure "u@example.com" "wrong password"
    { user := none, accounts := MOCK_ACCOUNTS,
      transactions := MOCK_TRANSACTIONS 0, authError := "" } rfl

/-! ### Account creation (src/App.tsx `saveAccount`, lines 224-251) -/

/-- `saveAccount` (App.tsx:224-251), demo-mode branch.  Empty name or empty
balance field (`accountBalance = none`) aborts.  With `editingAccount` set
it renames/re-balances every account with that id; otherwise it appends a
new account whose kind is hard-coded `'Checking'` and currency `'TWD'`. -/
def saveAccount (s : DemoState) (editingAccount : Option BankAccount)
    (accountName : String) (accountBalance : Option Int) (newId : String) :
    DemoState :=
  match accountBalance with
  | none => s
  | some balanceNum =>
    if accountName = "" then s
    else
      match editingAccount with
      | some ea =>
        { s with accounts := s.accounts.map (fun a =>
            if a.id = ea.id then
              { a with name := accountName, balance := balanceNum }
            else a) }
      | none =>
        { s with accounts := s.accounts ++
            [{ id := newId, name := accountName, balance := balanceNum,
               type := AccountKind.Checking, currency := "TWD" }] }

/-- **C10**: account creation appends exactly one account whose kind is
`Checking` and whose currency is `"TWD"` — the operation takes no kind or
currency input, so no other kind or currency can be produced: every
account of the resulting list is either pre-existing or Checking/TWD. -/
theorem saveAccount_create_kind (s : DemoState) (accountName : String)
    (balanceNum : Int) (newId : String) (h : accountName ≠ "") :
    (saveAccount s none accountName (some balanceNum) newId).accounts =
      s.accounts ++
        [{ id := newId, name := accountName, balance := balanceNum,
           type := AccountKind.Checking, currency := "TWD" }] ∧
    ∀ a ∈ (saveAccount s none accountName (some balanceNum) newId).accounts,
      a ∈ s.accounts ∨
        (a.type = AccountKind.Checking ∧ a.currency = "TWD") := by
  have heq : (saveAccount s none accountName (some balanceNum) newId).accounts =
      s.accounts ++
        [{ id := newId, name := accountName, balance := balanceNum,
           type := AccountKind.Checking, currency := "TWD" }] := by
    unfold saveAccount
    simp only [if_neg h]
  refine ⟨heq, fun a ha => ?_⟩
  rw [heq] at ha
  rcases List.mem_append.1 ha with hold | hnew
  · exact Or.inl hold
  · rcases List.mem_singleton.1 hnew with rfl
    exact Or.inr ⟨rfl, rfl⟩

/-- Witness for `saveAccount_create_kind` at a concrete state. -/
theorem saveAccount_create_kind_witness :
    (saveAccount { accounts := MOCK_ACCOUNTS, transactions := [] } none
        "旅遊基金" (some 500) "a9").accounts =
      MOCK_ACCOUNTS ++
        [{ id := "a9", name := "旅遊基金", balance := 500,
           type := AccountKind.Checking, currency := "TWD" }] ∧
    ∀ a ∈ (saveAccount { accounts := MOCK_ACCOUNTS, transactions := [] } none
        "旅遊基金" (some 500) "a9").accounts,
      a ∈ MOCK_ACCOUNTS ∨
        (a.type = AccountKind.Checking ∧ a.currency = "TWD") :=
  saveAccount_create_kind { accounts := MOCK_ACCOUNTS, transactions := [] }
    "旅遊基金" 500 "a9" (by decide)

/-! ### Remote-mode synchronization (src/App.tsx lines 136-169, 199-206)

The data-fetching effect subscribes to the `accounts` and `transactions`
collections while a user is set; its cleanup cancels both subscriptions
(`unsubAccounts(); unsubTransactions();`) and React runs this cleanup
before the effect body that clears the lists when `user` becomes null, so
logout cancels before clearing.  This is abstracted as a step machine:
`subsActive` says whether the two subscription callbacks are registered, a
push replaces the corresponding list only while they are. -/

/-- The sort applied in the transactions `onSnapshot` callback
(App.tsx:161): `sort((a, b) => new Date(b.date).getTime() - new
Date(a.date).getTime())`, i.e. descending by date. -/
def sortByDateDesc (l : List Transaction) : List Transaction :=
  l.mergeSort (fun a b => b.date ≤ a.date)

/-- Remote-mode session and subscription state. -/
structure SyncState where
  user : Option String
  subsActive : Bool
  accounts : List BankAccount
  transactions : List Transaction
deriving DecidableEq, Repr

/-- The external events driving the synchronization layer. -/
inductive SyncEvent where
  | login (uid : String)
  | logout
  | pushAccounts (snapshot : List BankAccount)
  | pushTransactions (snapshot : List Transaction)
deriving DecidableEq, Repr

/-- One step: login re-runs the effect and registers the subscriptions;
logout (signOut → `onAuthStateChanged(null)`) first runs the cleanup that
cancels both subscriptions, then the effect body clears both lists; a push
from a registered subscription replaces the corresponding list in full
(transactions sorted descending), and an unregistered one is never
delivered. -/
def syncStep (s : SyncState) : SyncEvent → SyncState
  | SyncEvent.login uid => { s with user := some uid, subsActive := true }
  | SyncEvent.logout =>
    { user := none, subsActive := false, accounts := [], transactions := [] }
  | SyncEvent.pushAccounts snapshot =>
    if s.subsActive then { s with accounts := snapshot } else s
  | SyncEvent.pushTransactions snapshot =>
    if s.subsActive then { s with transactions := sortByDateDesc snapshot }
    else s

/-- Run a sequence of events. -/
def syncRun (s : SyncState) (events : List SyncEvent) : SyncState :=
  events.foldl syncStep s

/-- Whether an event is a subscription push. -/
def isPush : SyncEvent → Bool
  | SyncEvent.pushAccounts _ => true
  | SyncEvent.pushTransactions _ => true
  | SyncEvent.login _ => false
  | SyncEvent.logout => false

theorem syncRun_inactive (events : List SyncEvent) : ∀ st : SyncState,
    st.subsActive = false → (∀ e ∈ events, isPush e = true) →
    syncRun st events = st := by
  induction events with
  | nil =>
    intro st _ _
    rfl
  | cons e es ih =>
    intro st hsub hall
    have he := hall e (List.mem_cons_self e es)
    have hstep : syncStep st e = st := by
      cases e with
      | login uid => simp [isPush] at he
      | logout => simp [isPush] at he
      | pushAccounts snapshot => simp [syncStep, hsub]
      | pushTransactions snapshot => simp [syncStep, hsub]
    rw [syncRun, List.foldl_cons, hstep]
    exact ih st hsub (fun x hx => hall x (List.mem_cons_of_mem e hx))

/-- **C7**: once logout has run, any sequence of late subscription pushes
leaves the accounts and transactions lists empty: the subscriptions are
cancelled before the state is cleared, so no push is ever applied
afterwards. -/
theorem no_push_applied_after_logout (s : SyncState)
    (events : List SyncEvent) (h : ∀ e ∈ events, isPush e = true) :
    (syncRun (syncStep s SyncEvent.logout) events).accounts = [] ∧
    (syncRun (syncStep s SyncEvent.logout) events).transactions = [] := by
  have hrun : syncRun (syncStep s SyncEvent.logout) events =
      syncStep s SyncEvent.logout :=
    syncRun_inactive events (syncStep s SyncEvent.logout) rfl h
  rw [hrun]
  exact ⟨rfl, rfl⟩

/-- Witness for `no_push_applied_after_logout`: a logged-in state with live
data, then a late account push and a late transaction push. -/
theorem no_push_applied_after_logout_witness :
    (syncRun (syncStep
        { user := some "u1", subsActive := true, accounts := MOCK_ACCOUNTS,
          transactions := MOCK_TRANSACTIONS 0 } SyncEvent.logout)
        [SyncEvent.pushAccounts MOCK_ACCOUNTS,
         SyncEvent.pushTransactions (MOCK_TRANSACTIONS 7)]).accounts = [] ∧
    (syncRun (syncStep
        { user := some "u1", subsActive := true, accounts := MOCK_ACCOUNTS,
          transactions := MOCK_TRANSACTIONS 0 } SyncEvent.logout)
        [SyncEvent.pushAccounts MOCK_ACCOUNTS,
         SyncEvent.pushTransactions (MOCK_TRANSACTIONS 7)]).transactions = [] :=
  no_push_applied_after_logout
    { user := some "u1", subsActive := true, accounts := MOCK_ACCOUNTS,
      transactions := MOCK_TRANSACTIONS 0 }
    [SyncEvent.pushAccounts MOCK_ACCOUNTS,
     SyncEvent.pushTransactions (MOCK_TRANSACTIONS 7)]
    (by intro e he; fin_cases he <;> rfl)

/-! ### Sorted-by-descending-timestamp invariant (claim C8) -/

/-- Descending-timestamp order between two transactions. -/
def dateDesc (a b : Transaction) : Prop := b.date ≤ a.date

instance : DecidableRel dateDesc :=
  fun a b => inferInstanceAs (Decidable (b.date ≤ a.date))

theorem sortByDateDesc_sorted (l : List Transaction) :
    List.Pairwise dateDesc (sortByDateDesc l) := by
  unfold sortByDateDesc
  refine List.Pairwise.imp ?_ (List.sorted_mergeSort ?_ ?_ l)
  · intro a b hab
    simpa [dateDesc] using hab
  · intro a b c h1 h2
    simp only [decide_eq_true_eq] at h1 h2 ⊢
    exact le_trans h2 h1
  · intro a b
    simp only [Bool.or_eq_true, decide_eq_true_eq]
    exact Nat.le_total b.date a.date

/-- **C8**: after every update of the current transactions list the list is
sorted by descending timestamp: a remote snapshot push installs
`sortByDateDesc snapshot` (and an ignored push preserves sortedness), and a
local-mode creation prepends the just-created transaction, whose timestamp
is current, to a sorted list of past transactions. -/
theorem transactions_sorted_after_update (snapshot : List Transaction)
    (sync : SyncState) (s : DemoState) (amount : Int)
    (transDesc transAccountId : String) (transType : TxType)
    (transCategory : String) (now : Nat) (newId : String)
    (hsync : List.Pairwise dateDesc sync.transactions)
    (hsorted : List.Pairwise dateDesc s.transactions)
    (hpast : ∀ t ∈ s.transactions, t.date ≤ now) :
    List.Pairwise dateDesc
      ((syncStep sync (SyncEvent.pushTransactions snapshot)).transactions) ∧
    List.Pairwise dateDesc
      ((saveTransaction s (some amount) transDesc transAccountId transType
          transCategory now newId).transactions) := by
  constructor
  · unfold syncStep
    by_cases hs : sync.subsActive
    · simp only [hs, if_true]
      exact sortByDateDesc_sorted snapshot
    · simp only [hs, if_false]
      exact hsync
  · unfold saveTransaction
    by_cases hg : transDesc = "" ∨ transAccountId = ""
    · simp only [if_pos hg]
      exact hsorted
    · simp only [if_neg hg]
      cases hfind : s.accounts.find? (fun a => a.id = transAccountId) with
      | none => exact hsorted
      | some account =>
        simp only
        exact List.Pairwise.cons (fun t ht => hpast t ht) hsorted

/-- Witness for `transactions_sorted_after_update`: a concrete snapshot,
sync state and local creation on the seed data. -/
theorem transactions_sorted_after_update_witness :
    List.Pairwise dateDesc
      ((syncStep
          { user := some "u1", subsActive := true, accounts := [],
            transactions := [] }
          (SyncEvent.pushTransactions (MOCK_TRANSACTIONS 3))).transactions) ∧
    List.Pairwise dateDesc
      ((saveTransaction (demoSeedState 0) (some 150) "午餐" "mock-1"
          TxType.expense "食" 9 "t8").transactions) := by
  refine transactions_sorted_after_update (MOCK_TRANSACTIONS 3)
    { user := some "u1", subsActive := true, accounts := [],
      transactions := [] }
    (demoSeedState 0) 150 "午餐" "mock-1" TxType.expense "食" 9 "t8"
    ?_ ?_ ?_
  · exact List.Pairwise.nil
  · unfold demoSeedState MOCK_TRANSACTIONS
    decide
  · unfold demoSeedState MOCK_TRANSACTIONS
    decide

end FinApp
